import Mathlib

/-!
# RPi_Signal: the toggle-and-measure loop of `src/main.c`

A shallow embedding of `func_signal_gen` over a fake world: the clock, the
termination flag, the output line and the ring buffer are functions of the
iteration number, and every call the thread makes is recorded in a trace.
-/

namespace RPiSignal

/-- The C `struct timespec`: whole seconds and nanoseconds. -/
structure timespec where
  tv_sec : Int
  tv_nsec : Int
deriving DecidableEq, Repr

/-- Nanoseconds since the clock's origin denoted by a timespec. -/
def timespec.total_ns (t : timespec) : Int :=
  t.tv_sec * 1000000000 + t.tv_nsec

/-- A timespec as the clock returns it: `0 <= tv_nsec < 1e9`. -/
def timespec.normalised (t : timespec) : Prop :=
  0 ≤ t.tv_nsec ∧ t.tv_nsec < 1000000000

instance (t : timespec) : Decidable t.normalised := by
  unfold timespec.normalised; infer_instance

/-- Modelled from the spec: `timespec_delta_nanoseconds` is declared in
`inc/main.h`, which is not among the sources. The spec calls its result the
"elapsed nanoseconds between" its two arguments: the first minus the second,
in nanoseconds. -/
def timespec_delta_nanoseconds (a b : timespec) : Int :=
  (a.tv_sec - b.tv_sec) * 1000000000 + (a.tv_nsec - b.tv_nsec)

/-- The fields of `thread_args_t` that `func_signal_gen` reads as plain values. -/
structure thread_args_t where
  core_id : Int
  sched_prio : Int
  period_ns : Int
deriving DecidableEq, Repr

/-- Everything `func_signal_gen` gets from outside, as a fake world.
`clock 0` is the reading that anchors `start`; `clock k` is the reading `now`
of iteration `k`. `killswitch n` is the flag as seen by the `n`-th loop test
(counted from 0). `line_write k` and `queue_ok k` are the outcomes of
`gpiod_line_set_value` and `ring_buffer_queue_arr` in iteration `k`.
`delta` is `timespec_delta_nanoseconds`, declared in `inc/main.h`, which is
not among the sources: its integer result is a parameter of the model.
`overhead` is what `get_clock_gettime_overhead` returned. -/
structure World where
  overhead : Nat
  delta : timespec → timespec → Int
  clock : Nat → timespec
  killswitch : Nat → Bool
  line_write : Nat → Int
  queue_ok : Nat → Bool

/-- One call made by the thread, with its arguments and what it returned. -/
inductive Event where
  | stick_thread_to_core (core : Int)
  | set_thread_priority (prio : Int)
  | get_clock_gettime_overhead (ret : Nat)
  | clock_gettime (ret : timespec)
  | clock_nanosleep (deadline : timespec)
  | gpiod_line_set_value (value : Nat) (ret : Int)
  | ring_buffer_queue_arr (sample : Nat) (accepted : Bool)
  | pthread_exit
deriving DecidableEq, Repr

/-- Unsigned 64-bit subtraction `d - err` as C computes it: modulo `2^64`. -/
def u64_sub (d : Int) (err : Nat) : Nat :=
  ((d - (err : Int)) % 18446744073709551616).toNat

/-- Lines 47-51: `start.tv_nsec += period_ns`, then one carry into `tv_sec`
when `tv_nsec >= 1e9`. The `long` arithmetic is done on `Int`: for a normalised
`start` and a period below 1e9 the sum stays below 2e9, which fits every
`long`, and the comparison with and subtraction of the double `1e9` are exact. -/
def deadline_step (start : timespec) (period_ns : Int) : timespec :=
  let nsec := start.tv_nsec + period_ns
  if nsec ≥ 1000000000 then
    { tv_sec := start.tv_sec + 1, tv_nsec := nsec - 1000000000 }
  else
    { tv_sec := start.tv_sec, tv_nsec := nsec }

/-- The local variables of `func_signal_gen` that live across iterations,
the number of completed iterations and the calls made so far. -/
structure LoopState where
  start : timespec
  current_state : Nat
  iter : Nat
  trace : List Event

/-- Lines 47-71: one pass through the body of the `while` loop. -/
def loop_body (w : World) (param : thread_args_t) (err : Nat) (s : LoopState) : LoopState :=
  let k := s.iter + 1
  let start := deadline_step s.start param.period_ns
  let now := w.clock k
  let current_state := if s.current_state = 0 then 1 else 0
  let diff := u64_sub (w.delta now start) err
  { start := now
    current_state := current_state
    iter := k
    trace := s.trace ++
      [ Event.clock_nanosleep start,
        Event.clock_gettime now,
        Event.gpiod_line_set_value current_state (w.line_write k),
        Event.ring_buffer_queue_arr diff (w.queue_ok k) ] }

/-- Lines 45-73: the `while (!param->killswitch)` loop, cut off after `fuel`
loop tests. The flag tells whether the loop was left through its test. -/
def loop (w : World) (param : thread_args_t) (err : Nat) : Nat → LoopState → LoopState × Bool
  | 0, s => (s, false)
  | fuel + 1, s =>
    if w.killswitch s.iter then (s, true)
    else loop w param err fuel (loop_body w param err s)

/-- What a run of `func_signal_gen` did: the calls in order, the number of
completed iterations, and whether the thread reached `pthread_exit`. -/
structure Run where
  trace : List Event
  iterations : Nat
  exited : Bool
deriving DecidableEq, Repr

/-- Lines 17-43: the calls made before the loop is entered. -/
def init_trace (w : World) (param : thread_args_t) : List Event :=
  [Event.stick_thread_to_core param.core_id] ++
  (if param.sched_prio ≥ 1 then [Event.set_thread_priority param.sched_prio] else []) ++
  [Event.get_clock_gettime_overhead w.overhead, Event.clock_gettime (w.clock 0)]

/-- Lines 17-75: `func_signal_gen`, with at most `fuel` loop tests. -/
def func_signal_gen (w : World) (param : thread_args_t) (fuel : Nat) : Run :=
  let err := w.overhead
  let s0 : LoopState :=
    { start := w.clock 0, current_state := 0, iter := 0, trace := init_trace w param }
  let r := loop w param err fuel s0
  { trace := if r.2 then r.1.trace ++ [Event.pthread_exit] else r.1.trace
    iterations := r.1.iter
    exited := r.2 }

/-- The samples handed to `ring_buffer_queue_arr`, in order. -/
def samples : List Event → List Nat
  | [] => []
  | Event.ring_buffer_queue_arr d _ :: es => d :: samples es
  | _ :: es => samples es

/-- The values handed to `gpiod_line_set_value`, in order. -/
def line_writes : List Event → List Nat
  | [] => []
  | Event.gpiod_line_set_value v _ :: es => v :: line_writes es
  | _ :: es => line_writes es

/-- The absolute deadlines handed to `clock_nanosleep`, in order. -/
def deadlines : List Event → List timespec
  | [] => []
  | Event.clock_nanosleep d :: es => d :: deadlines es
  | _ :: es => deadlines es

/-- The arguments of the calls to `set_thread_priority`, in order. -/
def priority_calls : List Event → List Int
  | [] => []
  | Event.set_thread_priority p :: es => p :: priority_calls es
  | _ :: es => priority_calls es

/-- The fake world of the 1 ms scenario: every wake time is exactly on its
deadline, the overhead is 2000 ns and the flag is raised after 5 iterations. -/
def world_on_deadline : World :=
  { overhead := 2000
    delta := timespec_delta_nanoseconds
    clock := fun k => { tv_sec := 0, tv_nsec := 1000000 * (k : Int) }
    killswitch := fun n => decide (5 ≤ n)
    line_write := fun _ => 0
    queue_ok := fun _ => true }

/-- Thread arguments of the 1 ms scenario. -/
def args_1ms : thread_args_t :=
  { core_id := 3, sched_prio := 0, period_ns := 1000000 }

/-- A fake world whose first wake-up is 500000 ns late and whose later
wake-ups are exactly on their deadlines; the flag is raised after 3 iterations. -/
def world_late_wake : World :=
  { overhead := 2000
    delta := timespec_delta_nanoseconds
    clock := fun k =>
      if k = 0 then { tv_sec := 0, tv_nsec := 0 }
      else { tv_sec := 0, tv_nsec := 1000000 * (k : Int) + 500000 }
    killswitch := fun n => decide (3 ≤ n)
    line_write := fun _ => 0
    queue_ok := fun _ => true }

/-- A fake world whose wake-up is 500 ns after the deadline, less than the
calibrated overhead of 2000 ns; the flag is raised after 1 iteration. -/
def world_short_wake : World :=
  { overhead := 2000
    delta := timespec_delta_nanoseconds
    clock := fun k => { tv_sec := 5, tv_nsec := 1000500 * (k : Int) }
    killswitch := fun n => decide (1 ≤ n)
    line_write := fun _ => 0
    queue_ok := fun _ => true }

/-- A fake world in which every write to the output line fails with -1;
each wake-up is 5000 ns late and the flag is raised after 2 iterations. -/
def world_write_fails : World :=
  { overhead := 2000
    delta := timespec_delta_nanoseconds
    clock := fun k => { tv_sec := 0, tv_nsec := 1005000 * (k : Int) }
    killswitch := fun n => decide (2 ≤ n)
    line_write := fun _ => -1
    queue_ok := fun _ => true }

/-- A fake world that crosses a second boundary: the anchor is 0.9995 s,
each wake-up is 7000 ns late, the ring buffer is full from iteration 2 on,
and the flag is raised after 4 iterations. -/
def world_buffer_full : World :=
  { overhead := 1500
    delta := timespec_delta_nanoseconds
    clock := fun k =>
      if k = 0 then { tv_sec := 41, tv_nsec := 999500000 }
      else { tv_sec := 42, tv_nsec := 1007000 * (k : Int) - 500000 }
    killswitch := fun n => decide (4 ≤ n)
    line_write := fun _ => 0
    queue_ok := fun k => decide (k < 2) }

/-- Thread arguments with a scheduling priority of 80 and a 1 ms period. -/
def args_prio80 : thread_args_t :=
  { core_id := 3, sched_prio := 80, period_ns := 1000000 }

/-! ## Closed form of the trace -/

/-- The deadline the loop sleeps for in iteration `i + 1`. -/
def deadline_at (w : World) (param : thread_args_t) (i : Nat) : timespec :=
  deadline_step (w.clock i) param.period_ns

/-- The sample the loop computes in iteration `i + 1`. -/
def sample_at (w : World) (param : thread_args_t) (i : Nat) : Nat :=
  u64_sub (w.delta (w.clock (i + 1)) (deadline_at w param i)) w.overhead

/-- The four calls of iteration `i + 1`. -/
def iter_events (w : World) (param : thread_args_t) (i : Nat) : List Event :=
  [ Event.clock_nanosleep (deadline_at w param i),
    Event.clock_gettime (w.clock (i + 1)),
    Event.gpiod_line_set_value ((i + 1) % 2) (w.line_write (i + 1)),
    Event.ring_buffer_queue_arr (sample_at w param i) (w.queue_ok (i + 1)) ]

/-- The calls of the first `n` iterations. -/
def loop_trace (w : World) (param : thread_args_t) : Nat → List Event
  | 0 => []
  | n + 1 => loop_trace w param n ++ iter_events w param n

/-- The loop invariant: `start` is the latest clock reading, the toggle state
is the parity of the iteration count, and the trace is the closed form. -/
def LoopInv (w : World) (param : thread_args_t) (s : LoopState) : Prop :=
  s.start = w.clock s.iter ∧ s.current_state = s.iter % 2 ∧
    s.trace = init_trace w param ++ loop_trace w param s.iter

theorem loop_body_iter (w : World) (param : thread_args_t) (err : Nat) (s : LoopState) :
    (loop_body w param err s).iter = s.iter + 1 := rfl

theorem loop_body_inv (w : World) (param : thread_args_t) (s : LoopState)
    (h : LoopInv w param s) : LoopInv w param (loop_body w param w.overhead s) := by
  obtain ⟨hs, hc, ht⟩ := h
  have hflip : (if s.current_state = 0 then 1 else 0) = (s.iter + 1) % 2 := by
    rw [hc]
    rcases Nat.mod_two_eq_zero_or_one s.iter with h0 | h1
    · rw [h0, if_pos rfl]; omega
    · rw [h1, if_neg (by decide)]; omega
  refine ⟨rfl, hflip, ?_⟩
  show s.trace ++ _ = init_trace w param ++ loop_trace w param (s.iter + 1)
  rw [ht, loop_trace, List.append_assoc, hflip, hs]
  rfl

theorem loop_inv (w : World) (param : thread_args_t) (fuel : Nat) :
    ∀ s, LoopInv w param s → LoopInv w param (loop w param w.overhead fuel s).1 := by
  induction fuel with
  | zero => intro s h; exact h
  | succ n ih =>
    intro s h
    unfold loop
    by_cases hk : w.killswitch s.iter = true
    · rw [if_pos hk]; exact h
    · rw [if_neg hk]; exact ih _ (loop_body_inv w param s h)

/-- The loop leaves through its test at the first loop test that sees the flag. -/
theorem loop_exits (w : World) (param : thread_args_t) (err : Nat) (fuel : Nat) :
    ∀ (s : LoopState) (n : Nat),
      (∀ i, i < n → w.killswitch (s.iter + i) = false) →
      w.killswitch (s.iter + n) = true → n < fuel →
      (loop w param err fuel s).2 = true ∧ (loop w param err fuel s).1.iter = s.iter + n := by
  induction fuel with
  | zero => intro s n _ _ hf; omega
  | succ m ih =>
    intro s n hfalse htrue hf
    unfold loop
    cases n with
    | zero =>
      rw [Nat.add_zero] at htrue
      rw [if_pos htrue]
      exact ⟨rfl, rfl⟩
    | succ j =>
      have h0 : w.killswitch s.iter = false := by
        have := hfalse 0 (Nat.succ_pos j)
        rwa [Nat.add_zero] at this
      rw [h0]
      simp only [Bool.false_eq_true, if_false]
      have := ih (loop_body w param err s) j
        (fun i hi => by
          rw [loop_body_iter]
          have := hfalse (i + 1) (by omega)
          rwa [show s.iter + 1 + i = s.iter + (i + 1) by omega])
        (by rw [loop_body_iter]; rwa [show s.iter + 1 + j = s.iter + (j + 1) by omega])
        (by omega)
      rw [loop_body_iter] at this
      refine ⟨this.1, ?_⟩
      rw [this.2]; omega

/-- While the flag stays down the loop uses every loop test for an iteration. -/
theorem loop_runs (w : World) (param : thread_args_t) (err : Nat) (fuel : Nat) :
    ∀ (s : LoopState),
      (∀ i, i < fuel → w.killswitch (s.iter + i) = false) →
      (loop w param err fuel s).2 = false ∧ (loop w param err fuel s).1.iter = s.iter + fuel := by
  induction fuel with
  | zero => intro s _; exact ⟨rfl, rfl⟩
  | succ m ih =>
    intro s hfalse
    unfold loop
    have h0 : w.killswitch s.iter = false := by
      have := hfalse 0 (Nat.succ_pos m)
      rwa [Nat.add_zero] at this
    rw [h0]
    simp only [Bool.false_eq_true, if_false]
    have := ih (loop_body w param err s)
      (fun i hi => by
        rw [loop_body_iter]
        have := hfalse (i + 1) (by omega)
        rwa [show s.iter + 1 + i = s.iter + (i + 1) by omega])
    rw [loop_body_iter] at this
    refine ⟨this.1, ?_⟩
    rw [this.2]; omega

/-- The trace of every run, in closed form. -/
theorem func_signal_gen_trace (w : World) (param : thread_args_t) (fuel : Nat) :
    (func_signal_gen w param fuel).trace =
      init_trace w param ++ loop_trace w param (func_signal_gen w param fuel).iterations ++
        (if (func_signal_gen w param fuel).exited then [Event.pthread_exit] else []) := by
  have h := loop_inv w param fuel
    { start := w.clock 0, current_state := 0, iter := 0, trace := init_trace w param }
    ⟨rfl, rfl, by simp [loop_trace]⟩
  obtain ⟨_, _, ht⟩ := h
  simp only [func_signal_gen]
  split
  · rw [ht]
  · rw [ht]; simp

/-! ## What the trace shows of each kind of call -/

theorem samples_append (a b : List Event) : samples (a ++ b) = samples a ++ samples b := by
  induction a with
  | nil => rfl
  | cons e es ih => cases e <;> simp [samples, ih]

theorem line_writes_append (a b : List Event) :
    line_writes (a ++ b) = line_writes a ++ line_writes b := by
  induction a with
  | nil => rfl
  | cons e es ih => cases e <;> simp [line_writes, ih]

theorem deadlines_append (a b : List Event) :
    deadlines (a ++ b) = deadlines a ++ deadlines b := by
  induction a with
  | nil => rfl
  | cons e es ih => cases e <;> simp [deadlines, ih]

theorem priority_calls_append (a b : List Event) :
    priority_calls (a ++ b) = priority_calls a ++ priority_calls b := by
  induction a with
  | nil => rfl
  | cons e es ih => cases e <;> simp [priority_calls, ih]

theorem samples_loop_trace (w : World) (param : thread_args_t) (n : Nat) :
    samples (loop_trace w param n) = (List.range n).map (sample_at w param) := by
  induction n with
  | zero => rfl
  | succ m ih =>
    rw [loop_trace, samples_append, ih, List.range_succ, List.map_append]
    rfl

theorem line_writes_loop_trace (w : World) (param : thread_args_t) (n : Nat) :
    line_writes (loop_trace w param n) = (List.range n).map (fun i => (i + 1) % 2) := by
  induction n with
  | zero => rfl
  | succ m ih =>
    rw [loop_trace, line_writes_append, ih, List.range_succ, List.map_append]
    rfl

theorem deadlines_loop_trace (w : World) (param : thread_args_t) (n : Nat) :
    deadlines (loop_trace w param n) = (List.range n).map (deadline_at w param) := by
  induction n with
  | zero => rfl
  | succ m ih =>
    rw [loop_trace, deadlines_append, ih, List.range_succ, List.map_append]
    rfl

theorem priority_calls_loop_trace (w : World) (param : thread_args_t) (n : Nat) :
    priority_calls (loop_trace w param n) = [] := by
  induction n with
  | zero => rfl
  | succ m ih =>
    rw [loop_trace, priority_calls_append, ih]
    rfl

theorem samples_init_trace (w : World) (param : thread_args_t) :
    samples (init_trace w param) = [] := by
  unfold init_trace; split <;> rfl

theorem line_writes_init_trace (w : World) (param : thread_args_t) :
    line_writes (init_trace w param) = [] := by
  unfold init_trace; split <;> rfl

theorem deadlines_init_trace (w : World) (param : thread_args_t) :
    deadlines (init_trace w param) = [] := by
  unfold init_trace; split <;> rfl

theorem priority_calls_init_trace (w : World) (param : thread_args_t) :
    priority_calls (init_trace w param) =
      if param.sched_prio ≥ 1 then [param.sched_prio] else [] := by
  unfold init_trace; split <;> rfl

/-- The samples of a run are the closed-form samples of its iterations. -/
theorem samples_run (w : World) (param : thread_args_t) (fuel : Nat) :
    samples (func_signal_gen w param fuel).trace =
      (List.range (func_signal_gen w param fuel).iterations).map (sample_at w param) := by
  rw [func_signal_gen_trace, samples_append, samples_append, samples_init_trace,
    samples_loop_trace]
  split <;> simp [samples]

/-- The line writes of a run alternate, starting with 1. -/
theorem line_writes_run (w : World) (param : thread_args_t) (fuel : Nat) :
    line_writes (func_signal_gen w param fuel).trace =
      (List.range (func_signal_gen w param fuel).iterations).map (fun i => (i + 1) % 2) := by
  rw [func_signal_gen_trace, line_writes_append, line_writes_append, line_writes_init_trace,
    line_writes_loop_trace]
  split <;> simp [line_writes]

/-- The deadlines of a run are the closed-form deadlines of its iterations. -/
theorem deadlines_run (w : World) (param : thread_args_t) (fuel : Nat) :
    deadlines (func_signal_gen w param fuel).trace =
      (List.range (func_signal_gen w param fuel).iterations).map (deadline_at w param) := by
  rw [func_signal_gen_trace, deadlines_append, deadlines_append, deadlines_init_trace,
    deadlines_loop_trace]
  split <;> simp [deadlines]

/-- The priority calls of a run are those made before the loop. -/
theorem priority_calls_run (w : World) (param : thread_args_t) (fuel : Nat) :
    priority_calls (func_signal_gen w param fuel).trace =
      if param.sched_prio ≥ 1 then [param.sched_prio] else [] := by
  rw [func_signal_gen_trace, priority_calls_append, priority_calls_append,
    priority_calls_init_trace, priority_calls_loop_trace]
  split <;> split <;> simp [priority_calls]

/-- A run that sees the flag for the first time at loop test `n` exits
after exactly `n` iterations. -/
theorem run_exits (w : World) (param : thread_args_t) (fuel n : Nat)
    (hfalse : ∀ i, i < n → w.killswitch i = false) (htrue : w.killswitch n = true)
    (hfuel : n < fuel) :
    (func_signal_gen w param fuel).exited = true ∧
      (func_signal_gen w param fuel).iterations = n := by
  have h := loop_exits w param w.overhead fuel
    { start := w.clock 0, current_state := 0, iter := 0, trace := init_trace w param } n
    (fun i hi => by simpa using hfalse i hi) (by simpa using htrue) hfuel
  simpa [func_signal_gen] using h

/-- A run that never sees the flag uses all its loop tests for iterations. -/
theorem run_runs (w : World) (param : thread_args_t) (fuel : Nat)
    (hfalse : ∀ i, i < fuel → w.killswitch i = false) :
    (func_signal_gen w param fuel).exited = false ∧
      (func_signal_gen w param fuel).iterations = fuel := by
  have h := loop_runs w param w.overhead fuel
    { start := w.clock 0, current_state := 0, iter := 0, trace := init_trace w param }
    (fun i hi => by simpa using hfalse i hi)
  simpa [func_signal_gen] using h

/-- The number of iterations and the way the loop is left depend on the flag
observations only. -/
theorem loop_count_indep (w w' : World) (param param' : thread_args_t) (err err' : Nat)
    (hk : w.killswitch = w'.killswitch) (fuel : Nat) :
    ∀ (s s' : LoopState), s.iter = s'.iter →
      (loop w param err fuel s).2 = (loop w' param' err' fuel s').2 ∧
      (loop w param err fuel s).1.iter = (loop w' param' err' fuel s').1.iter := by
  induction fuel with
  | zero => intro s s' h; exact ⟨rfl, h⟩
  | succ m ih =>
    intro s s' h
    unfold loop
    rw [← hk, ← h]
    by_cases hkill : w.killswitch s.iter = true
    · rw [if_pos hkill, if_pos hkill]; exact ⟨rfl, h⟩
    · rw [if_neg hkill, if_neg hkill]
      exact ih _ _ (by rw [loop_body_iter, loop_body_iter, h])

theorem run_count_indep (w w' : World) (param param' : thread_args_t)
    (hk : w.killswitch = w'.killswitch) (fuel : Nat) :
    (func_signal_gen w param fuel).exited = (func_signal_gen w' param' fuel).exited ∧
      (func_signal_gen w param fuel).iterations =
        (func_signal_gen w' param' fuel).iterations := by
  have h := loop_count_indep w w' param param' w.overhead w'.overhead hk fuel
    { start := w.clock 0, current_state := 0, iter := 0, trace := init_trace w param }
    { start := w'.clock 0, current_state := 0, iter := 0, trace := init_trace w' param' } rfl
  simpa [func_signal_gen] using h

/-! ## Arithmetic of the deadline step and of the sample -/

theorem deadline_step_carry (start : timespec) (P : Int)
    (h : start.tv_nsec + P ≥ 1000000000) :
    deadline_step start P =
      { tv_sec := start.tv_sec + 1, tv_nsec := start.tv_nsec + P - 1000000000 } := by
  simp only [deadline_step, if_pos h]

theorem deadline_step_no_carry (start : timespec) (P : Int)
    (h : ¬ start.tv_nsec + P ≥ 1000000000) :
    deadline_step start P = { tv_sec := start.tv_sec, tv_nsec := start.tv_nsec + P } := by
  simp only [deadline_step, if_neg h]

theorem deadline_step_total (start : timespec) (P : Int) :
    (deadline_step start P).total_ns = start.total_ns + P := by
  by_cases h : start.tv_nsec + P ≥ 1000000000
  · rw [deadline_step_carry start P h]; simp only [timespec.total_ns]; omega
  · rw [deadline_step_no_carry start P h]; simp only [timespec.total_ns]; omega

theorem deadline_step_normalised (start : timespec) (P : Int)
    (hn : start.normalised) (h0 : 0 < P) (h1 : P < 1000000000) :
    (deadline_step start P).normalised := by
  unfold timespec.normalised at hn ⊢
  by_cases h : start.tv_nsec + P ≥ 1000000000
  · rw [deadline_step_carry start P h]; simp only; omega
  · rw [deadline_step_no_carry start P h]; simp only; omega

theorem u64_sub_of_le (d : Int) (err : Nat) (h : (err : Int) ≤ d)
    (hd : d - err < 18446744073709551616) : (u64_sub d err : Int) = d - err := by
  unfold u64_sub
  rw [Int.emod_eq_of_lt (by omega) hd]
  exact Int.toNat_of_nonneg (by omega)

theorem u64_sub_of_lt (d : Int) (err : Nat) (h : d < (err : Int))
    (hd : -18446744073709551616 ≤ d - err) :
    (u64_sub d err : Int) = d - err + 18446744073709551616 := by
  unfold u64_sub
  have h1 : (d - (err : Int)) % 18446744073709551616 = d - err + 18446744073709551616 := by
    rw [← Int.add_mul_emod_self (a := d - (err : Int)) (b := 1) (c := 18446744073709551616)]
    rw [Int.emod_eq_of_lt (by omega) (by omega)]
    omega
  rw [h1]
  exact Int.toNat_of_nonneg (by omega)

/-- The loop is left only through a loop test that sees the flag raised. -/
theorem loop_exit_flag (w : World) (param : thread_args_t) (err : Nat) (fuel : Nat) :
    ∀ (s : LoopState), (loop w param err fuel s).2 = true →
      w.killswitch (loop w param err fuel s).1.iter = true := by
  induction fuel with
  | zero => intro s h; exact absurd h (by simp [loop])
  | succ m ih =>
    intro s
    unfold loop
    by_cases hkill : w.killswitch s.iter = true
    · rw [if_pos hkill]; intro _; exact hkill
    · rw [if_neg hkill]; exact ih _

theorem run_exit_flag (w : World) (param : thread_args_t) (fuel : Nat)
    (h : (func_signal_gen w param fuel).exited = true) :
    w.killswitch (func_signal_gen w param fuel).iterations = true :=
  loop_exit_flag w param w.overhead fuel _ h

theorem timespec_delta_total (a b : timespec) :
    timespec_delta_nanoseconds a b = a.total_ns - b.total_ns := by
  unfold timespec_delta_nanoseconds timespec.total_ns
  omega

/-- The wake-up lateness accumulated over the first `i` iterations is the
distance of the latest wake time from the anchor, less `i` periods. -/
theorem lateness_sum (w : World) (P : Int) (i : Nat) :
    ((List.range i).map (fun j =>
        (w.clock (j + 1)).total_ns - (deadline_step (w.clock j) P).total_ns)).sum =
      (w.clock i).total_ns - (w.clock 0).total_ns - (i : Int) * P := by
  induction i with
  | zero => simp
  | succ m ih =>
    rw [List.sum_range_succ, ih, deadline_step_total]
    push_cast
    ring

theorem samples_get (w : World) (param : thread_args_t) (fuel i : Nat)
    (hi : i < (func_signal_gen w param fuel).iterations) :
    (samples (func_signal_gen w param fuel).trace)[i]? = some (sample_at w param i) := by
  rw [samples_run, List.getElem?_map, List.getElem?_range hi]; rfl

theorem deadlines_get (w : World) (param : thread_args_t) (fuel i : Nat)
    (hi : i < (func_signal_gen w param fuel).iterations) :
    (deadlines (func_signal_gen w param fuel).trace)[i]? = some (deadline_at w param i) := by
  rw [deadlines_run, List.getElem?_map, List.getElem?_range hi]; rfl

theorem sum_range_nonneg (f : Nat → Int) (n : Nat) (h : ∀ j, j < n → 0 ≤ f j) :
    0 ≤ ((List.range n).map f).sum := by
  induction n with
  | zero => simp
  | succ m ih =>
    rw [List.sum_range_succ]
    have h1 := ih (fun j hj => h j (Nat.lt_succ_of_lt hj))
    have h2 := h m (Nat.lt_succ_self m)
    omega

/-- A sum of non-negative terms is zero exactly when every term is zero. -/
theorem sum_range_eq_zero_iff (f : Nat → Int) (n : Nat) (h : ∀ j, j < n → 0 ≤ f j) :
    ((List.range n).map f).sum = 0 ↔ ∀ j, j < n → f j = 0 := by
  induction n with
  | zero => simp
  | succ m ih =>
    rw [List.sum_range_succ]
    have hpre : ∀ j, j < m → 0 ≤ f j := fun j hj => h j (Nat.lt_succ_of_lt hj)
    have h1 := sum_range_nonneg f m hpre
    have h2 := h m (Nat.lt_succ_self m)
    constructor
    · intro hs j hj
      have hm : f m = 0 := by omega
      have hsum : ((List.range m).map f).sum = 0 := by omega
      rcases Nat.lt_succ_iff_lt_or_eq.mp hj with hlt | heq
      · exact (ih hpre).mp hsum j hlt
      · rw [heq]; exact hm
    · intro hall
      have hm : f m = 0 := hall m (Nat.lt_succ_self m)
      have hsum : ((List.range m).map f).sum = 0 :=
        (ih hpre).mpr (fun j hj => hall j (Nat.lt_succ_of_lt hj))
      omega

/-! ## The claims -/

/-- C1 (the code at the failing input): with a period of 1,000,000 ns, an
overhead of 2,000 ns and 5 iterations whose wake times fall exactly on their
deadlines, the 5 samples handed to `ring_buffer_queue_arr` are each
`2^64 - 2000`, the wrapped value of `0 - 2000`, and not 998,000. -/
theorem C1_on_deadline_samples_wrap :
    args_1ms.period_ns = 1000000 ∧ world_on_deadline.overhead = 2000 ∧
    (func_signal_gen world_on_deadline args_1ms 6).iterations = 5 ∧
    deadlines (func_signal_gen world_on_deadline args_1ms 6).trace =
      (List.range 5).map (fun k => world_on_deadline.clock (k + 1)) ∧
    samples (func_signal_gen world_on_deadline args_1ms 6).trace =
      [18446744073709549616, 18446744073709549616, 18446744073709549616,
       18446744073709549616, 18446744073709549616] ∧
    998000 ∉ samples (func_signal_gen world_on_deadline args_1ms 6).trace := by
  decide

/-- C8: for a normalised `start` and a period `0 < P < 1e9`, the deadline step
yields a normalised timespec, adds exactly 1 to the seconds when the old
`tv_nsec + P` reaches 1e9 and 0 otherwise, gives `tv_nsec = 0` when the sum is
exactly 1e9, and moves the total by exactly `P` nanoseconds. -/
theorem C8_deadline_step_single_carry (start : timespec) (P : Int)
    (hn : start.normalised) (h0 : 0 < P) (h1 : P < 1000000000) :
    (deadline_step start P).normalised ∧
    (deadline_step start P).tv_sec =
      start.tv_sec + (if start.tv_nsec + P ≥ 1000000000 then 1 else 0) ∧
    (start.tv_nsec + P = 1000000000 → (deadline_step start P).tv_nsec = 0) ∧
    (deadline_step start P).total_ns = start.total_ns + P := by
  refine ⟨deadline_step_normalised start P hn h0 h1, ?_, ?_, deadline_step_total start P⟩
  · by_cases h : start.tv_nsec + P ≥ 1000000000
    · rw [deadline_step_carry start P h, if_pos h]
    · rw [deadline_step_no_carry start P h, if_neg h]; simp
  · intro h
    rw [deadline_step_carry start P (by omega)]
    simp only
    omega

/-- C8 at the boundary: `tv_nsec = 999,999,999` and `P = 1` sum to exactly 1e9. -/
theorem C8_deadline_step_single_carry_witness :
    (⟨7, 999999999⟩ : timespec).normalised ∧ (0 : Int) < 1 ∧ (1 : Int) < 1000000000 ∧
    ((deadline_step ⟨7, 999999999⟩ 1).normalised ∧
     (deadline_step ⟨7, 999999999⟩ 1).tv_sec =
       (⟨7, 999999999⟩ : timespec).tv_sec +
         (if (⟨7, 999999999⟩ : timespec).tv_nsec + 1 ≥ 1000000000 then 1 else 0) ∧
     ((⟨7, 999999999⟩ : timespec).tv_nsec + 1 = 1000000000 →
       (deadline_step ⟨7, 999999999⟩ 1).tv_nsec = 0) ∧
     (deadline_step ⟨7, 999999999⟩ 1).total_ns =
       (⟨7, 999999999⟩ : timespec).total_ns + 1) :=
  ⟨by decide, by decide, by decide,
    C8_deadline_step_single_carry ⟨7, 999999999⟩ 1 (by decide) (by decide) (by decide)⟩

/-- C9: in every run, one value is written to the output line per iteration,
the value written in iteration `k` is 1 when `k` is odd and 0 when `k` is even
(so it is always 0 or 1), and the next write never carries the same value. -/
theorem C9_toggle_alternates (w : World) (param : thread_args_t) (fuel k : Nat)
    (hk1 : 1 ≤ k) (hk : k ≤ (func_signal_gen w param fuel).iterations) :
    (line_writes (func_signal_gen w param fuel).trace).length =
      (func_signal_gen w param fuel).iterations ∧
    (line_writes (func_signal_gen w param fuel).trace)[k - 1]? =
      some (if k % 2 = 1 then 1 else 0) ∧
    (line_writes (func_signal_gen w param fuel).trace)[k]? ≠
      (line_writes (func_signal_gen w param fuel).trace)[k - 1]? := by
  rw [line_writes_run]
  have hlt : k - 1 < (func_signal_gen w param fuel).iterations := by omega
  have hcur : ((List.range (func_signal_gen w param fuel).iterations).map
      (fun i => (i + 1) % 2))[k - 1]? = some (if k % 2 = 1 then 1 else 0) := by
    rw [List.getElem?_map, List.getElem?_range hlt]
    show some ((k - 1 + 1) % 2) = _
    rw [Nat.sub_add_cancel hk1]
    rcases Nat.mod_two_eq_zero_or_one k with h | h <;> simp [h]
  refine ⟨by simp, hcur, ?_⟩
  rw [hcur]
  by_cases hnext : k < (func_signal_gen w param fuel).iterations
  · rw [List.getElem?_map, List.getElem?_range hnext]
    show some ((k + 1) % 2) ≠ _
    rcases Nat.mod_two_eq_zero_or_one k with h | h
    · have : (k + 1) % 2 = 1 := by omega
      simp [h, this]
    · have : (k + 1) % 2 = 0 := by omega
      simp [h, this]
  · have : ((List.range (func_signal_gen w param fuel).iterations).map
        (fun i => (i + 1) % 2))[k]? = none := by
      rw [List.getElem?_eq_none_iff]; simp; omega
    rw [this]; simp

/-- C9 at iteration 3 of the 5 iterations of the 1 ms scenario. -/
theorem C9_toggle_alternates_witness :
    1 ≤ 3 ∧ 3 ≤ (func_signal_gen world_on_deadline args_1ms 6).iterations ∧
    ((line_writes (func_signal_gen world_on_deadline args_1ms 6).trace).length =
      (func_signal_gen world_on_deadline args_1ms 6).iterations ∧
    (line_writes (func_signal_gen world_on_deadline args_1ms 6).trace)[3 - 1]? =
      some (if 3 % 2 = 1 then 1 else 0) ∧
    (line_writes (func_signal_gen world_on_deadline args_1ms 6).trace)[3]? ≠
      (line_writes (func_signal_gen world_on_deadline args_1ms 6).trace)[3 - 1]?) :=
  ⟨by decide, by decide,
    C9_toggle_alternates world_on_deadline args_1ms 6 3 (by decide) (by decide)⟩

/-- C10: in every run and every iteration `i + 1`, the deadline slept for is
the deadline step of the previous wake time `clock i` (the anchor for `i = 0`),
and the enqueued sample is
`(timespec_delta_nanoseconds(now, deadline) - overhead) mod 2^64`. For a
period `0 < P < 1e9` and a normalised previous wake time that deadline is the
previous wake time plus the period; with the elapsed-nanoseconds delta, a
wake-up `L` ns after the deadline gives the sample `(L - overhead) mod 2^64`,
whatever the period. -/
theorem C10_sample_is_lateness (w : World) (param : thread_args_t) (fuel i : Nat)
    (hi : i < (func_signal_gen w param fuel).iterations) :
    (samples (func_signal_gen w param fuel).trace)[i]? =
      some (u64_sub (w.delta (w.clock (i + 1)) (deadline_step (w.clock i) param.period_ns))
        w.overhead) ∧
    (deadlines (func_signal_gen w param fuel).trace)[i]? =
      some (deadline_step (w.clock i) param.period_ns) ∧
    (0 < param.period_ns → param.period_ns < 1000000000 → (w.clock i).normalised →
      (deadline_step (w.clock i) param.period_ns).normalised ∧
      (deadline_step (w.clock i) param.period_ns).total_ns =
        (w.clock i).total_ns + param.period_ns) ∧
    (w.delta = timespec_delta_nanoseconds → ∀ L : Int,
      (w.clock (i + 1)).total_ns =
        (deadline_step (w.clock i) param.period_ns).total_ns + L →
      (samples (func_signal_gen w param fuel).trace)[i]? = some (u64_sub L w.overhead)) := by
  refine ⟨samples_get w param fuel i hi, deadlines_get w param fuel i hi, ?_, ?_⟩
  · intro h0 h1 hn
    exact ⟨deadline_step_normalised _ _ hn h0 h1, deadline_step_total _ _⟩
  · intro hd L hL
    rw [samples_get w param fuel i hi]
    simp only [sample_at, deadline_at, hd, timespec_delta_total]
    congr 2
    omega

/-- C10 at iteration 2 of a run that crosses a second boundary: the wake-up is
7000 ns after the deadline and the overhead is 1500 ns. -/
theorem C10_sample_is_lateness_witness :
    1 < (func_signal_gen world_buffer_full args_prio80 5).iterations ∧
    (samples (func_signal_gen world_buffer_full args_prio80 5).trace)[1]? = some 5500 ∧
    (deadline_step (world_buffer_full.clock 1) args_prio80.period_ns).total_ns =
      (world_buffer_full.clock 1).total_ns + args_prio80.period_ns ∧
    (samples (func_signal_gen world_buffer_full args_prio80 5).trace)[1]? =
      some (u64_sub 7000 world_buffer_full.overhead) :=
  ⟨by decide,
    (C10_sample_is_lateness world_buffer_full args_prio80 5 1 (by decide)).1.trans
      (by decide),
    ((C10_sample_is_lateness world_buffer_full args_prio80 5 1 (by decide)).2.2.1
      (by decide) (by decide) (by decide)).2,
    (C10_sample_is_lateness world_buffer_full args_prio80 5 1 (by decide)).2.2.2 rfl 7000
      (by decide)⟩

/-- C2 (counterexample): the first wake-up is 500,000 ns after its deadline
and the later ones are exactly on theirs; the deadline of iteration 2 is then
2,500,000 ns, which is 500,000 ns away from `start + 2 * P = 2,000,000`. -/
theorem C2_counterexample :
    args_1ms.period_ns = 1000000 ∧
    world_late_wake.clock 0 = ⟨0, 0⟩ ∧
    (List.range 3).map (fun k => world_late_wake.clock (k + 1)) =
      [⟨0, 1500000⟩, ⟨0, 2500000⟩, ⟨0, 3500000⟩] ∧
    deadlines (func_signal_gen world_late_wake args_1ms 4).trace =
      [⟨0, 1000000⟩, ⟨0, 2500000⟩, ⟨0, 3500000⟩] ∧
    (⟨0, 2500000⟩ : timespec).total_ns -
      ((world_late_wake.clock 0).total_ns + 2 * args_1ms.period_ns) = 500000 := by
  decide

/-- C2 (amended): for every period `0 < P < 1e9` and normalised clock
readings, the deadline slept for in iteration `i + 1` is normalised and is the
previous wake time `clock i` (the anchor for `i = 0`) plus the period; it
equals the anchor plus `i + 1` periods plus the signed wake-up lateness
accumulated over the earlier iterations. It is therefore the anchor plus
`i + 1` periods when every earlier wake time fell exactly on its deadline,
exactly when the accumulated lateness is zero, and, when every earlier wake
time is at or after the deadline it slept for, exactly when every earlier wake
time fell on its deadline. -/
theorem C2_deadline_follows_wake_time (w : World) (param : thread_args_t) (fuel i : Nat)
    (hP0 : 0 < param.period_ns) (hP1 : param.period_ns < 1000000000)
    (hnorm : ∀ j, j ≤ i → (w.clock j).normalised)
    (hi : i < (func_signal_gen w param fuel).iterations) :
    (deadlines (func_signal_gen w param fuel).trace)[i]? =
      some (deadline_step (w.clock i) param.period_ns) ∧
    (deadline_step (w.clock i) param.period_ns).normalised ∧
    (deadline_step (w.clock i) param.period_ns).total_ns =
      (w.clock i).total_ns + param.period_ns ∧
    (deadline_step (w.clock i) param.period_ns).total_ns =
      (w.clock 0).total_ns + ((i : Int) + 1) * param.period_ns +
        ((List.range i).map (fun j => (w.clock (j + 1)).total_ns -
          (deadline_step (w.clock j) param.period_ns).total_ns)).sum ∧
    ((∀ j, j < i → w.clock (j + 1) = deadline_step (w.clock j) param.period_ns) →
      (deadline_step (w.clock i) param.period_ns).total_ns =
        (w.clock 0).total_ns + ((i : Int) + 1) * param.period_ns) ∧
    ((deadline_step (w.clock i) param.period_ns).total_ns =
        (w.clock 0).total_ns + ((i : Int) + 1) * param.period_ns ↔
      ((List.range i).map (fun j => (w.clock (j + 1)).total_ns -
          (deadline_step (w.clock j) param.period_ns).total_ns)).sum = 0) ∧
    ((∀ j, j < i → (deadline_step (w.clock j) param.period_ns).total_ns ≤
          (w.clock (j + 1)).total_ns) →
      ((deadline_step (w.clock i) param.period_ns).total_ns =
          (w.clock 0).total_ns + ((i : Int) + 1) * param.period_ns ↔
        ∀ j, j < i → (w.clock (j + 1)).total_ns =
          (deadline_step (w.clock j) param.period_ns).total_ns)) := by
  have hsum := lateness_sum w param.period_ns i
  have htot := deadline_step_total (w.clock i) param.period_ns
  have hacc : (deadline_step (w.clock i) param.period_ns).total_ns =
      (w.clock 0).total_ns + ((i : Int) + 1) * param.period_ns +
        ((List.range i).map (fun j => (w.clock (j + 1)).total_ns -
          (deadline_step (w.clock j) param.period_ns).total_ns)).sum := by
    rw [hsum, htot]; ring
  have hiff : (deadline_step (w.clock i) param.period_ns).total_ns =
        (w.clock 0).total_ns + ((i : Int) + 1) * param.period_ns ↔
      ((List.range i).map (fun j => (w.clock (j + 1)).total_ns -
          (deadline_step (w.clock j) param.period_ns).total_ns)).sum = 0 := by
    constructor
    · intro h; linarith
    · intro h; linarith
  refine ⟨deadlines_get w param fuel i hi,
    deadline_step_normalised _ _ (hnorm i (Nat.le_refl i)) hP0 hP1, htot, hacc, ?_, hiff, ?_⟩
  · intro hon
    apply hiff.mpr
    apply List.sum_eq_zero
    intro x hx
    rw [List.mem_map] at hx
    obtain ⟨j, hj, rfl⟩ := hx
    rw [hon j (List.mem_range.mp hj)]
    exact sub_self _
  · intro hlate
    rw [hiff]
    rw [sum_range_eq_zero_iff
      (fun j => (w.clock (j + 1)).total_ns -
        (deadline_step (w.clock j) param.period_ns).total_ns) i
      (fun j hj => sub_nonneg.mpr (hlate j hj))]
    constructor
    · intro h j hj; exact sub_eq_zero.mp (h j hj)
    · intro h j hj; exact sub_eq_zero.mpr (h j hj)

/-- C2 (amended) at iteration 3 of the run with a late first wake-up: every
wake time is at or after its deadline, the deadline is 3,500,000 ns (the
anchor plus 3 periods plus the 500,000 ns of lateness of iteration 1), and so
not every earlier wake time fell on its deadline. -/
theorem C2_deadline_follows_wake_time_witness :
    0 < args_1ms.period_ns ∧ args_1ms.period_ns < 1000000000 ∧
    (∀ j, j ≤ 2 → (world_late_wake.clock j).normalised) ∧
    2 < (func_signal_gen world_late_wake args_1ms 4).iterations ∧
    (∀ j, j < 2 → (deadline_step (world_late_wake.clock j) args_1ms.period_ns).total_ns ≤
      (world_late_wake.clock (j + 1)).total_ns) ∧
    (deadlines (func_signal_gen world_late_wake args_1ms 4).trace)[2]? =
      some (deadline_step (world_late_wake.clock 2) args_1ms.period_ns) ∧
    (deadline_step (world_late_wake.clock 2) args_1ms.period_ns).total_ns = 3500000 ∧
    ((deadline_step (world_late_wake.clock 2) args_1ms.period_ns).total_ns =
        (world_late_wake.clock 0).total_ns + (((2 : Nat) : Int) + 1) * args_1ms.period_ns ↔
      ∀ j, j < 2 → (world_late_wake.clock (j + 1)).total_ns =
        (deadline_step (world_late_wake.clock j) args_1ms.period_ns).total_ns) :=
  ⟨by decide, by decide, by decide, by decide, by decide,
    (C2_deadline_follows_wake_time world_late_wake args_1ms 4 2 (by decide) (by decide)
      (by decide) (by decide)).1,
    (C2_deadline_follows_wake_time world_late_wake args_1ms 4 2 (by decide) (by decide)
      (by decide) (by decide)).2.2.1.trans (by decide),
    (C2_deadline_follows_wake_time world_late_wake args_1ms 4 2 (by decide) (by decide)
      (by decide) (by decide)).2.2.2.2.2.2 (by decide)⟩

/-- C3 (counterexample): the wake-up is 500 ns after the deadline and the
overhead is 2000 ns, so the raw elapsed time is below the overhead; the run
enqueues the wrapped value `2^64 - 1500`, which is not the true difference
`500 - 2000`, and goes on to its normal exit. -/
theorem C3_counterexample :
    world_short_wake.delta (world_short_wake.clock 1)
      (deadline_step (world_short_wake.clock 0) args_1ms.period_ns) = 500 ∧
    world_short_wake.overhead = 2000 ∧
    (func_signal_gen world_short_wake args_1ms 2).trace =
      [ Event.stick_thread_to_core 3,
        Event.get_clock_gettime_overhead 2000,
        Event.clock_gettime ⟨5, 0⟩,
        Event.clock_nanosleep ⟨5, 1000000⟩,
        Event.clock_gettime ⟨5, 1000500⟩,
        Event.gpiod_line_set_value 1 0,
        Event.ring_buffer_queue_arr 18446744073709550116 true,
        Event.pthread_exit ] ∧
    ((18446744073709550116 : Nat) : Int) ≠ 500 - 2000 ∧
    (18446744073709550116 : Int) = (500 - 2000) % 18446744073709551616 := by
  decide

/-- C3 (amended): in every run one sample is enqueued per iteration, and the
sample of iteration `i + 1` is `(raw_elapsed - overhead) mod 2^64`: the true
difference when `overhead <= raw_elapsed`, and the wrapped value
`raw_elapsed - overhead + 2^64` when `raw_elapsed < overhead`. -/
theorem C3_sample_is_difference_mod_2_64 (w : World) (param : thread_args_t) (fuel i : Nat)
    (hi : i < (func_signal_gen w param fuel).iterations) :
    (samples (func_signal_gen w param fuel).trace).length =
      (func_signal_gen w param fuel).iterations ∧
    (samples (func_signal_gen w param fuel).trace)[i]? =
      some (u64_sub (w.delta (w.clock (i + 1)) (deadline_step (w.clock i) param.period_ns))
        w.overhead) ∧
    ((w.overhead : Int) ≤
        w.delta (w.clock (i + 1)) (deadline_step (w.clock i) param.period_ns) →
      w.delta (w.clock (i + 1)) (deadline_step (w.clock i) param.period_ns) - w.overhead
        < 18446744073709551616 →
      ((u64_sub (w.delta (w.clock (i + 1)) (deadline_step (w.clock i) param.period_ns))
        w.overhead : Nat) : Int) =
        w.delta (w.clock (i + 1)) (deadline_step (w.clock i) param.period_ns) - w.overhead) ∧
    (w.delta (w.clock (i + 1)) (deadline_step (w.clock i) param.period_ns) < w.overhead →
      -18446744073709551616 ≤
        w.delta (w.clock (i + 1)) (deadline_step (w.clock i) param.period_ns) - w.overhead →
      ((u64_sub (w.delta (w.clock (i + 1)) (deadline_step (w.clock i) param.period_ns))
        w.overhead : Nat) : Int) =
        w.delta (w.clock (i + 1)) (deadline_step (w.clock i) param.period_ns) - w.overhead
          + 18446744073709551616) := by
  refine ⟨?_, samples_get w param fuel i hi, ?_, ?_⟩
  · rw [samples_run]; simp
  · intro h hd; exact u64_sub_of_le _ _ h hd
  · intro h hd; exact u64_sub_of_lt _ _ h hd

/-- C3 (amended) at iteration 1 of the run with a late first wake-up, where
the raw elapsed time of 500,000 ns exceeds the overhead of 2,000 ns. -/
theorem C3_sample_is_difference_mod_2_64_witness :
    0 < (func_signal_gen world_late_wake args_1ms 4).iterations ∧
    (samples (func_signal_gen world_late_wake args_1ms 4).trace).length = 3 ∧
    (samples (func_signal_gen world_late_wake args_1ms 4).trace)[0]? = some 498000 :=
  ⟨by decide,
    (C3_sample_is_difference_mod_2_64 world_late_wake args_1ms 4 0 (by decide)).1.trans
      (by decide),
    (C3_sample_is_difference_mod_2_64 world_late_wake args_1ms 4 0 (by decide)).2.1.trans
      (by decide)⟩

/-- C4 (counterexample): every write to the output line returns -1, the flag
is not raised before the third loop test, and the run still enqueues a sample
in iteration 1 and sleeps, writes and enqueues again in iteration 2. -/
theorem C4_counterexample :
    world_write_fails.line_write 1 = -1 ∧
    (func_signal_gen world_write_fails args_1ms 3).trace =
      [ Event.stick_thread_to_core 3,
        Event.get_clock_gettime_overhead 2000,
        Event.clock_gettime ⟨0, 0⟩,
        Event.clock_nanosleep ⟨0, 1000000⟩,
        Event.clock_gettime ⟨0, 1005000⟩,
        Event.gpiod_line_set_value 1 (-1),
        Event.ring_buffer_queue_arr 3000 true,
        Event.clock_nanosleep ⟨0, 2005000⟩,
        Event.clock_gettime ⟨0, 2010000⟩,
        Event.gpiod_line_set_value 0 (-1),
        Event.ring_buffer_queue_arr 3000 true,
        Event.pthread_exit ] := by
  decide

/-- C4 (amended): the outcome of the line write is discarded. Whatever
`gpiod_line_set_value` returns in any iteration, the run has the same number
of iterations, the same exit, the same deadlines, the same written values and
the same samples, one per iteration; the loop is left only through a loop test
that sees the termination flag, and while the flag stays down every loop test
is followed by a further iteration. -/
theorem C4_write_outcome_discarded (w : World) (param : thread_args_t) (fuel : Nat)
    (lw : Nat → Int) :
    (func_signal_gen { w with line_write := lw } param fuel).iterations =
      (func_signal_gen w param fuel).iterations ∧
    (func_signal_gen { w with line_write := lw } param fuel).exited =
      (func_signal_gen w param fuel).exited ∧
    deadlines (func_signal_gen { w with line_write := lw } param fuel).trace =
      deadlines (func_signal_gen w param fuel).trace ∧
    line_writes (func_signal_gen { w with line_write := lw } param fuel).trace =
      line_writes (func_signal_gen w param fuel).trace ∧
    samples (func_signal_gen { w with line_write := lw } param fuel).trace =
      samples (func_signal_gen w param fuel).trace ∧
    (samples (func_signal_gen { w with line_write := lw } param fuel).trace).length =
      (func_signal_gen w param fuel).iterations ∧
    ((func_signal_gen { w with line_write := lw } param fuel).exited = true →
      w.killswitch (func_signal_gen w param fuel).iterations = true) ∧
    ((∀ i, i < fuel → w.killswitch i = false) →
      (func_signal_gen { w with line_write := lw } param fuel).exited = false ∧
      (func_signal_gen { w with line_write := lw } param fuel).iterations = fuel) := by
  obtain ⟨he, hn⟩ := run_count_indep { w with line_write := lw } w param param rfl fuel
  refine ⟨hn, he, ?_, ?_, ?_, ?_, ?_, ?_⟩
  · rw [deadlines_run, deadlines_run, hn]; rfl
  · rw [line_writes_run, line_writes_run, hn]
  · rw [samples_run, samples_run, hn]; rfl
  · rw [samples_run, hn]; simp
  · intro h
    rw [he] at h
    exact run_exit_flag w param fuel h
  · intro hdown
    exact run_runs { w with line_write := lw } param fuel hdown

/-- C7: the outcome of `ring_buffer_queue_arr` has no influence on the loop.
Whatever the ring buffer answers in any iteration, the run has the same number
of iterations, the same exit, the same deadlines, the same written values and
the same samples, one per iteration; the loop is left only through a loop test
that sees the termination flag, never because of a rejected enqueue. -/
theorem C7_enqueue_outcome_no_influence (w : World) (param : thread_args_t) (fuel : Nat)
    (q : Nat → Bool) :
    (func_signal_gen { w with queue_ok := q } param fuel).iterations =
      (func_signal_gen w param fuel).iterations ∧
    (func_signal_gen { w with queue_ok := q } param fuel).exited =
      (func_signal_gen w param fuel).exited ∧
    deadlines (func_signal_gen { w with queue_ok := q } param fuel).trace =
      deadlines (func_signal_gen w param fuel).trace ∧
    line_writes (func_signal_gen { w with queue_ok := q } param fuel).trace =
      line_writes (func_signal_gen w param fuel).trace ∧
    samples (func_signal_gen { w with queue_ok := q } param fuel).trace =
      samples (func_signal_gen w param fuel).trace ∧
    (samples (func_signal_gen { w with queue_ok := q } param fuel).trace).length =
      (func_signal_gen w param fuel).iterations ∧
    ((func_signal_gen { w with queue_ok := q } param fuel).exited = true →
      w.killswitch (func_signal_gen w param fuel).iterations = true) ∧
    ((∀ i, i < fuel → w.killswitch i = false) →
      (func_signal_gen { w with queue_ok := q } param fuel).exited = false ∧
      (func_signal_gen { w with queue_ok := q } param fuel).iterations = fuel) := by
  obtain ⟨he, hn⟩ := run_count_indep { w with queue_ok := q } w param param rfl fuel
  refine ⟨hn, he, ?_, ?_, ?_, ?_, ?_, ?_⟩
  · rw [deadlines_run, deadlines_run, hn]; rfl
  · rw [line_writes_run, line_writes_run, hn]
  · rw [samples_run, samples_run, hn]; rfl
  · rw [samples_run, hn]; simp
  · intro h
    rw [he] at h
    exact run_exit_flag w param fuel h
  · intro hdown
    exact run_runs { w with queue_ok := q } param fuel hdown

/-- C5: `set_thread_priority` is called exactly once, with the configured
priority, when that priority is at least 1, and never otherwise; with
priority 0 no call is made; and the priority has no influence on the loop:
for every other priority the run has the same number of iterations, the same
exit, the same deadlines, written values and samples, one per iteration. -/
theorem C5_priority_opt_in (w : World) (param : thread_args_t) (fuel : Nat) :
    priority_calls (func_signal_gen w param fuel).trace =
      (if param.sched_prio ≥ 1 then [param.sched_prio] else []) ∧
    priority_calls (func_signal_gen w { param with sched_prio := 0 } fuel).trace = [] ∧
    (samples (func_signal_gen w param fuel).trace).length =
      (func_signal_gen w param fuel).iterations ∧
    ∀ p : Int,
      (func_signal_gen w { param with sched_prio := p } fuel).iterations =
        (func_signal_gen w param fuel).iterations ∧
      (func_signal_gen w { param with sched_prio := p } fuel).exited =
        (func_signal_gen w param fuel).exited ∧
      deadlines (func_signal_gen w { param with sched_prio := p } fuel).trace =
        deadlines (func_signal_gen w param fuel).trace ∧
      line_writes (func_signal_gen w { param with sched_prio := p } fuel).trace =
        line_writes (func_signal_gen w param fuel).trace ∧
      samples (func_signal_gen w { param with sched_prio := p } fuel).trace =
        samples (func_signal_gen w param fuel).trace := by
  refine ⟨priority_calls_run w param fuel, ?_, ?_, ?_⟩
  · rw [priority_calls_run]; rfl
  · rw [samples_run]; simp
  · intro p
    obtain ⟨he, hn⟩ := run_count_indep w w { param with sched_prio := p } param rfl fuel
    refine ⟨hn, he, ?_, ?_, ?_⟩
    · rw [deadlines_run, deadlines_run, hn]; rfl
    · rw [line_writes_run, line_writes_run, hn]
    · rw [samples_run, samples_run, hn]; rfl

/-- C6: when the loop tests see the flag down `n` times and then raised, the
run exits, its last call is `pthread_exit`, and it has made exactly `n`
sleeps, `n` line writes and `n` enqueues; with `n = 0` the output line is
never written and nothing is enqueued. -/
theorem C6_exit_on_flag (w : World) (param : thread_args_t) (fuel n : Nat)
    (hfalse : ∀ i, i < n → w.killswitch i = false) (htrue : w.killswitch n = true)
    (hfuel : n < fuel) :
    (func_signal_gen w param fuel).exited = true ∧
    (func_signal_gen w param fuel).iterations = n ∧
    (func_signal_gen w param fuel).trace.getLast? = some Event.pthread_exit ∧
    (deadlines (func_signal_gen w param fuel).trace).length = n ∧
    (line_writes (func_signal_gen w param fuel).trace).length = n ∧
    (samples (func_signal_gen w param fuel).trace).length = n ∧
    (n = 0 → line_writes (func_signal_gen w param fuel).trace = [] ∧
      samples (func_signal_gen w param fuel).trace = []) := by
  obtain ⟨he, hn⟩ := run_exits w param fuel n hfalse htrue hfuel
  have hd : (deadlines (func_signal_gen w param fuel).trace).length = n := by
    rw [deadlines_run, hn]; simp
  have hl : (line_writes (func_signal_gen w param fuel).trace).length = n := by
    rw [line_writes_run, hn]; simp
  have hs : (samples (func_signal_gen w param fuel).trace).length = n := by
    rw [samples_run, hn]; simp
  refine ⟨he, hn, ?_, hd, hl, hs, ?_⟩
  · rw [func_signal_gen_trace, he]; simp
  · intro h0
    subst h0
    exact ⟨List.length_eq_zero.mp hl, List.length_eq_zero.mp hs⟩

/-- C6 for the 1 ms scenario, where the flag is first seen at loop test 5. -/
theorem C6_exit_on_flag_witness :
    (∀ i, i < 5 → world_on_deadline.killswitch i = false) ∧
    world_on_deadline.killswitch 5 = true ∧ 5 < 9 ∧
    (func_signal_gen world_on_deadline args_1ms 9).exited = true ∧
    (line_writes (func_signal_gen world_on_deadline args_1ms 9).trace).length = 5 ∧
    (samples (func_signal_gen world_on_deadline args_1ms 9).trace).length = 5 :=
  ⟨by decide, by decide, by decide,
    (C6_exit_on_flag world_on_deadline args_1ms 9 5 (by decide) (by decide) (by decide)).1,
    (C6_exit_on_flag world_on_deadline args_1ms 9 5 (by decide) (by decide)
      (by decide)).2.2.2.2.1,
    (C6_exit_on_flag world_on_deadline args_1ms 9 5 (by decide) (by decide)
      (by decide)).2.2.2.2.2.1⟩

end RPiSignal
